import Mathlib

/-!
Verification of the ION DID operation engine (did-sdk): codec primitives,
public-key commitment scheme, BTC signer/verifier, the state-change
validator, and the operation request builders.

Modelling conventions.
Go byte slices and Go strings handled as raw bytes are both embedded as
`Bytes := List Nat`, each element a byte value below 256.  Validator ids
and error messages, which the source handles as Go strings, are embedded
as Lean `String`; the Go `len` of a string is its UTF-8 byte length,
embedded as `strByteLen`.  Fallible Go functions returning `(T, error)`
are embedded as `Except GoErr T` (except `VerifyJWS`, which the source
returns as a `(bool, error)` pair, embedded as `Bool × Option GoErr`).

External libraries (crypto/sha256, crypto/ecdsa, goccy/go-json,
gowebpki/jcs, the ssi-sdk JWK conversion) are not part of this
repository; their behaviour is abstracted as the fields of a `GoEnv`
record, over which every theorem quantifies.  Functions of the
repository itself (everything in the `ion` package under verification)
are translated definition by definition from the source.  The multihash
framing of go-multihash (`varint code ++ varint length ++ digest`) and
Go base64 `RawURLEncoding` are deterministic byte-level formats and are
embedded concretely.
-/

set_option autoImplicit false
set_option maxRecDepth 100000

namespace DidSdk

abbrev Bytes := List Nat

abbrev GoErr := String

/-! ### Go base64.RawURLEncoding (unpadded, URL-safe) -/

/-- The URL-safe base64 alphabet, as ASCII byte values:
A-Z, a-z, 0-9, minus, underscore. -/
def b64Alphabet : Bytes :=
  [65, 66, 67, 68, 69, 70, 71, 72, 73, 74, 75, 76, 77, 78, 79, 80,
   81, 82, 83, 84, 85, 86, 87, 88, 89, 90,
   97, 98, 99, 100, 101, 102, 103, 104, 105, 106, 107, 108, 109, 110,
   111, 112, 113, 114, 115, 116, 117, 118, 119, 120, 121, 122,
   48, 49, 50, 51, 52, 53, 54, 55, 56, 57, 45, 95]

/-- The alphabet byte for a 6-bit index. -/
def b64Byte (n : Nat) : Nat := b64Alphabet.getD n 65

def decByteAux : List Nat → Nat → Nat → Option Nat
  | [], _, _ => none
  | a :: rest, i, b => if a = b then some i else decByteAux rest (i + 1) b

/-- The 6-bit index of an alphabet byte; `none` for a byte outside the
alphabet (Go reports CorruptInputError). -/
def decByte (b : Nat) : Option Nat := decByteAux b64Alphabet 0 b

/-- Unpadded base64url encoding of a byte sequence, three input bytes per
four output bytes, mirroring Go encoding/base64 with NoPadding. -/
def encodeGroups : Bytes → Bytes
  | [] => []
  | [a] => [b64Byte (a / 4), b64Byte (a % 4 * 16)]
  | [a, b] => [b64Byte (a / 4), b64Byte (a % 4 * 16 + b / 16), b64Byte (b % 16 * 4)]
  | a :: b :: c :: rest =>
      b64Byte (a / 4) :: b64Byte (a % 4 * 16 + b / 16) ::
      b64Byte (b % 16 * 4 + c / 64) :: b64Byte (c % 64) :: encodeGroups rest

/-- Unpadded base64url decoding, mirroring Go encoding/base64 with
NoPadding (not strict: unused trailing bits are dropped); fails on a
byte outside the alphabet or on a final quantum of one byte. -/
def decodeGroups : Bytes → Option Bytes
  | [] => some []
  | [_] => none
  | [c1, c2] =>
    match decByte c1, decByte c2 with
    | some n1, some n2 => some [n1 * 4 + n2 / 16]
    | _, _ => none
  | [c1, c2, c3] =>
    match decByte c1, decByte c2, decByte c3 with
    | some n1, some n2, some n3 => some [n1 * 4 + n2 / 16, n2 % 16 * 16 + n3 / 4]
    | _, _, _ => none
  | c1 :: c2 :: c3 :: c4 :: rest =>
    match decByte c1, decByte c2, decByte c3, decByte c4, decodeGroups rest with
    | some n1, some n2, some n3, some n4, some tail =>
        some ((n1 * 4 + n2 / 16) :: (n2 % 16 * 16 + n3 / 4) :: (n3 % 4 * 64 + n4) :: tail)
    | _, _, _, _, _ => none

/-! ### go-multihash framing and unsigned varints -/

/-- Little-endian base-128 varint, structural on a fuel argument so the
kernel can evaluate it (the fuel `n` always suffices). -/
def varintAux : Nat → Nat → Bytes
  | 0, n => [n % 128]
  | fuel + 1, n => if n < 128 then [n] else (n % 128 + 128) :: varintAux fuel (n / 128)

def varint (n : Nat) : Bytes := varintAux n n

/-! ### The ion data model

The patch, delta, request and state-change types of the ion package; the
struct definitions live in the model file of the package, their shapes
are fixed by their use in request.go and by the wire format. -/

/-- A DID document; opaque here, the builders never inspect it. -/
abbrev Document := Nat

/-- An external `PublicKeyJWK`; opaque here, the engine only passes it to
the external JWK conversion and embeds it in signed payloads. -/
abbrev PublicKeyJWK := Nat

structure Service where
  id : String
  type : String
  serviceEndpoint : Nat
  deriving DecidableEq, Repr

structure PublicKey where
  id : String
  rest : Nat
  deriving DecidableEq, Repr

inductive Patch where
  | replaceAction (document : Document)
  | addServicesAction (services : List Service)
  | removeServicesAction (ids : List String)
  | addPublicKeysAction (publicKeys : List PublicKey)
  | removePublicKeysAction (ids : List String)
  deriving DecidableEq, Repr

structure Delta where
  updateCommitment : Bytes
  patches : List Patch
  deriving DecidableEq, Repr

structure SuffixData where
  deltaHash : Bytes
  recoveryCommitment : Bytes
  deriving DecidableEq, Repr

structure StateChange where
  servicesToAdd : List Service
  serviceIDsToRemove : List String
  publicKeysToAdd : List PublicKey
  publicKeyIDsToRemove : List String
  deriving DecidableEq, Repr

structure CreateRequest where
  type : String
  suffixData : SuffixData
  delta : Delta
  deriving DecidableEq, Repr

structure DeactivateRequest where
  type : String
  didSuffix : String
  revealValue : Bytes
  signedData : Bytes
  deriving DecidableEq, Repr

structure RecoverRequest where
  type : String
  didSuffix : String
  revealValue : Bytes
  delta : Delta
  signedData : Bytes
  deriving DecidableEq, Repr

structure UpdateRequest where
  type : String
  didSuffix : String
  revealValue : Bytes
  delta : Delta
  signedData : Bytes
  deriving DecidableEq, Repr

/-- The Go `any` values this engine hands to the external JSON
marshaller: the fixed JWS header map, JWK values, deltas, and the three
anonymous to-be-signed structs of the builders. -/
inductive GoVal where
  | jwsHeader
  | jwkOf (k : PublicKeyJWK)
  | deltaVal (d : Delta)
  | docVal (d : Document)
  | deactivateSigned (didSuffix : String) (recoveryKey : PublicKeyJWK)
  | recoverSigned (recoveryCommitment : Bytes) (recoveryKey : PublicKeyJWK) (deltaHash : Bytes)
  | updateSigned (updateKey : PublicKeyJWK) (deltaHash : Bytes)
  deriving DecidableEq, Repr

/-- The external collaborators of the engine, one record field per
library function the source calls, quantified over in every theorem:
crypto/sha256 digests, goccy/go-json marshalling, gowebpki/jcs
canonicalization, the ssi-sdk JWK conversion, and the crypto/ecdsa
calls of the fixed BTC key pair (signing with the zero nonce reader is
deterministic, so it is a function of the digest). -/
structure GoEnv where
  sha256 : Bytes → Bytes
  jsonMarshal : GoVal → Except GoErr Bytes
  jcsTransform : Bytes → Except GoErr Bytes
  jwkFromPublicKeyJWK : PublicKeyJWK → Except GoErr GoVal
  ecdsaSignRS : Bytes → Except GoErr (Nat × Nat)
  ecdsaVerifyASN1 : Bytes → Bytes → Bool

/-! ### Codec primitives of the ion package -/

/-- Source `Hash`: one SHA-256 application, no framing. -/
def Hash (env : GoEnv) (data : Bytes) : Bytes := env.sha256 data

/-- Source `Multihash`: SHA-256 then the go-multihash frame
`varint code ++ varint digestLength ++ digest` with code SHA2_256 = 0x12;
go-multihash Encode cannot fail for the valid SHA2_256 code, so the
error branch of the source is dead and the result is always ok. -/
def Multihash (env : GoEnv) (data : Bytes) : Except GoErr Bytes :=
  let hashed := env.sha256 data
  .ok (varint 18 ++ varint hashed.length ++ hashed)

/-- Source `Encode`: unpadded URL-safe base64, result as raw ASCII bytes. -/
def Encode (data : Bytes) : Bytes := encodeGroups data

/-- Source `Decode`: unpadded URL-safe base64 decoding; `none` models the
non-nil error of Go DecodeString on malformed input. -/
def Decode (data : Bytes) : Option Bytes := decodeGroups data

/-- Source `HashEncode`: multihash the data, then base64url the frame. -/
def HashEncode (env : GoEnv) (data : Bytes) : Except GoErr Bytes :=
  match Multihash env data with
  | .error e => .error e
  | .ok hashed => .ok (Encode hashed)

/-- Source `Canonicalize`: the external JCS transform. -/
def Canonicalize (env : GoEnv) (data : Bytes) : Except GoErr Bytes :=
  env.jcsTransform data

/-- Source `CanonicalizeAny`: JSON-marshal, then canonicalize. -/
def CanonicalizeAny (env : GoEnv) (data : GoVal) : Except GoErr Bytes :=
  match env.jsonMarshal data with
  | .error e => .error e
  | .ok anyBytes => Canonicalize env anyBytes

/-- Source `EncodeAny`: JSON-marshal, then base64url. -/
def EncodeAny (env : GoEnv) (data : GoVal) : Except GoErr Bytes :=
  match env.jsonMarshal data with
  | .error e => .error e
  | .ok anyBytes => .ok (Encode anyBytes)

/-! ### Commitment scheme -/

/-- Source `Commit`: canonicalize the JWK form of the key, then derive
`reveal = HashEncode canonicalKey` and
`commitment = HashEncode (Hash canonicalKey)`. -/
def Commit (env : GoEnv) (key : PublicKeyJWK) : Except GoErr (Bytes × Bytes) :=
  match env.jwkFromPublicKeyJWK key with
  | .error e => .error e
  | .ok gotJWK =>
    match CanonicalizeAny env gotJWK with
    | .error e => .error e
    | .ok canonicalKey =>
      let intermediateHash := Hash env canonicalKey
      match HashEncode env canonicalKey with
      | .error e => .error e
      | .ok reveal =>
        match HashEncode env intermediateHash with
        | .error e => .error e
        | .ok commitment => .ok (reveal, commitment)

/-! ### BTC signer/verifier -/

/-- Source `numTo32bStr`: lowercase minimal hex of the number, left-padded with
zero characters to width 64 (Go fmt `%x` then `%064s`); hex digits as
ASCII byte values. -/
def hexDigitByte (n : Nat) : Nat := if n < 10 then 48 + n else 87 + n

def hexDigitsAux : Nat → Nat → Bytes → Bytes
  | 0, n, acc => hexDigitByte (n % 16) :: acc
  | fuel + 1, n, acc =>
      if n < 16 then hexDigitByte n :: acc
      else hexDigitsAux fuel (n / 16) (hexDigitByte (n % 16) :: acc)

/-- Minimal lowercase hex digits of a number, as Go fmt `%x` prints a
nonnegative big.Int (a single zero digit for zero). -/
def hexDigits (n : Nat) : Bytes := hexDigitsAux n n []

def numTo32bStr (num : Nat) : Bytes :=
  let hexStr := hexDigits num
  List.replicate (64 - hexStr.length) 48 ++ hexStr

/-- Value of one hex digit byte as strconv.ParseUint base 16 reads it
(accepts both cases; the produced digits are lowercase). -/
def hexByteVal (b : Nat) : Option Nat :=
  if 48 ≤ b ∧ b ≤ 57 then some (b - 48)
  else if 97 ≤ b ∧ b ≤ 102 then some (b - 87)
  else if 65 ≤ b ∧ b ≤ 70 then some (b - 55)
  else none

/-- Parse consecutive pairs of hex digit bytes into bytes. -/
def hexPairsToBytes : Bytes → Except GoErr Bytes
  | [] => .ok []
  | [_] => .error "invalid byte sequence"
  | h1 :: h2 :: rest =>
    match hexByteVal h1, hexByteVal h2 with
    | some v1, some v2 =>
      match hexPairsToBytes rest with
      | .error e => .error e
      | .ok tail => .ok ((v1 * 16 + v2) :: tail)
    | _, _ => .error "invalid byte sequence"

/-- Source `toCompactHex`: concatenate the two padded hex strings and re-parse
them pairwise into bytes; fails on odd total hex length. -/
def toCompactHex (r s : Nat) : Except GoErr Bytes :=
  let hex := numTo32bStr r ++ numTo32bStr s
  if hex.length % 2 ≠ 0 then .error "received invalid unpadded hex"
  else hexPairsToBytes hex

/-- Source `Sign`: SHA-256 the data, ECDSA-sign the digest (deterministically,
the nonce reader is all zeros), emit the compact 64-byte form. -/
def Sign (env : GoEnv) (data : Bytes) : Except GoErr Bytes :=
  let messageHash := Hash env data
  match env.ecdsaSignRS messageHash with
  | .error e => .error e
  | .ok (r, s) => toCompactHex r s

/-- Source `Verify`: SHA-256 the data, hand digest and signature to the external
ASN.1-DER ECDSA verifier. -/
def Verify (env : GoEnv) (data signature : Bytes) : Bool :=
  let messageHash := Hash env data
  env.ecdsaVerifyASN1 messageHash signature

/-- The ASCII dot joining compact JWS segments. -/
def dotByte : Nat := 46

/-- Source `SignJWT`: base64url the marshalled header and payload, hash the
joined signing content once, `Sign` it (which hashes again), and join
the three segments.  The source returns the pair `("", nil)` on every
internal failure (it logs and discards the error), embedded here as
`.ok []`. -/
def SignJWT (env : GoEnv) (data : GoVal) : Except GoErr Bytes :=
  match EncodeAny env GoVal.jwsHeader with
  | .error _ => .ok []
  | .ok encodedHeader =>
    match EncodeAny env data with
    | .error _ => .ok []
    | .ok encodedPayload =>
      let signingContent := encodedHeader ++ dotByte :: encodedPayload
      let contentHash := Hash env signingContent
      match Sign env contentHash with
      | .error _ => .ok []
      | .ok signed =>
        let encodedSignature := Encode signed
        .ok (encodedHeader ++ dotByte :: encodedPayload ++ dotByte :: encodedSignature)

/-- Go strings.Split on a single separator byte. -/
def splitOnByte (sep : Nat) : Bytes → List Bytes
  | [] => [[]]
  | b :: rest =>
    if b = sep then [] :: splitOnByte sep rest
    else
      match splitOnByte sep rest with
      | [] => [[b]]
      | t :: ts => (b :: t) :: ts

/-- Source `VerifyJWS`, returning the `(bool, error)` pair of the source: split
on dots, demand exactly three parts, rebuild and hash the signing
content, decode the signature segment, and `Verify`. -/
def VerifyJWS (env : GoEnv) (jws : Bytes) : Bool × Option GoErr :=
  let jwsParts := splitOnByte dotByte jws
  if jwsParts.length ≠ 3 then (false, some "invalid JWS")
  else
    match jwsParts with
    | p0 :: p1 :: p2 :: _ =>
      let signingContent := p0 ++ dotByte :: p1
      let contentHash := Hash env signingContent
      match Decode p2 with
      | none => (false, some "could not decode signature")
      | some decodedSignature => (Verify env contentHash decodedSignature, none)
    | _ => (false, some "invalid JWS")

/-! ### State-change validator -/

/-- Go `len` of a string: its UTF-8 byte length. -/
def strByteLen (s : String) : Nat := s.data.foldl (fun n c => n + c.utf8Size) 0

def maxIDLength : Nat := 50

def maxServiceTypeLength : Nat := 30

/-- Go map membership on a key set collected from a list of ids. -/
def listHas : List String → String → Bool
  | [], _ => false
  | x :: rest, s => if x = s then true else listHas rest s

/-- The services-to-add loop of `IsValid`: duplicate id, id length and
type length checks, accumulating the index of ids seen so far. -/
def checkServicesToAdd : List Service → List String → Option GoErr
  | [], _ => none
  | service :: rest, seen =>
    if listHas seen service.id then
      some ("service " ++ service.id ++ " duplicated")
    else if strByteLen service.id > maxIDLength then
      some ("service<" ++ service.id ++ "> id is too long")
    else if strByteLen service.type > maxServiceTypeLength then
      some ("service<" ++ service.id ++ "> type " ++ service.type ++ " is too long")
    else checkServicesToAdd rest (service.id :: seen)

/-- The public-keys-to-add loop of `IsValid`. -/
def checkPublicKeysToAdd : List PublicKey → List String → Option GoErr
  | [], _ => none
  | publicKey :: rest, seen =>
    if listHas seen publicKey.id then
      some ("public key<" ++ publicKey.id ++ "> is duplicated")
    else if strByteLen publicKey.id > maxIDLength then
      some ("public key<" ++ publicKey.id ++ "> id is too long")
    else checkPublicKeysToAdd rest (publicKey.id :: seen)

/-- The services-to-remove loop of `IsValid`: the full index of added
service ids is in scope once the add loop has completed. -/
def checkServiceIDsToRemove (addedIDs : List String) : List String → Option GoErr
  | [] => none
  | serviceID :: rest =>
    if listHas addedIDs serviceID then
      some ("service<" ++ serviceID ++ "> added and removed in same request")
    else if strByteLen serviceID > maxIDLength then
      some ("service<" ++ serviceID ++ "> id is too long")
    else checkServiceIDsToRemove addedIDs rest

/-- The public-keys-to-remove loop of `IsValid`. -/
def checkPublicKeyIDsToRemove (addedIDs : List String) : List String → Option GoErr
  | [] => none
  | publicKeyID :: rest =>
    if listHas addedIDs publicKeyID then
      some ("public key<" ++ publicKeyID ++ "> added and removed in same request")
    else if strByteLen publicKeyID > maxIDLength then
      some ("public key<" ++ publicKeyID ++ "> id is too long")
    else checkPublicKeyIDsToRemove addedIDs rest

/-- Source `StateChange.IsValid`; `none` is the nil error. -/
def IsValid (s : StateChange) : Option GoErr :=
  match checkServicesToAdd s.servicesToAdd [] with
  | some e => some e
  | none =>
    match checkPublicKeysToAdd s.publicKeysToAdd [] with
    | some e => some e
    | none =>
      match checkServiceIDsToRemove (s.servicesToAdd.map Service.id) s.serviceIDsToRemove with
      | some e => some e
      | none =>
        checkPublicKeyIDsToRemove (s.publicKeysToAdd.map PublicKey.id) s.publicKeyIDsToRemove

/-! ### Operation builders -/

/-- Source `NewDeactivateRequest`: reveal value from the recovery key, then a
compact JWS over the `{didSuffix, recoveryKey}` payload. -/
def NewDeactivateRequest (env : GoEnv) (didSuffix : String) (recoveryKey : PublicKeyJWK) :
    Except GoErr DeactivateRequest :=
  match Commit env recoveryKey with
  | .error e => .error e
  | .ok (revealValue, _) =>
    match SignJWT env (GoVal.deactivateSigned didSuffix recoveryKey) with
    | .error e => .error ("failed to sign JWT: " ++ e)
    | .ok signedJWT =>
      .ok { type := "deactivate", didSuffix := didSuffix,
            revealValue := revealValue, signedData := signedJWT }

/-- Source `NewRecoverRequest`. -/
def NewRecoverRequest (env : GoEnv) (didSuffix : String)
    (recoveryKey nextRecoveryKey nextUpdateKey : PublicKeyJWK) (document : Document) :
    Except GoErr RecoverRequest :=
  match Commit env recoveryKey with
  | .error e => .error e
  | .ok (revealValue, _) =>
    let patches := [Patch.replaceAction document]
    match Commit env nextUpdateKey with
    | .error e => .error e
    | .ok (_, updateCommitment) =>
      let delta : Delta := { updateCommitment := updateCommitment, patches := patches }
      match CanonicalizeAny env (GoVal.deltaVal delta) with
      | .error e => .error e
      | .ok deltaCanonical =>
        match HashEncode env deltaCanonical with
        | .error e => .error e
        | .ok deltaHash =>
          match Commit env nextRecoveryKey with
          | .error e => .error e
          | .ok (_, recoveryCommitment) =>
            match SignJWT env (GoVal.recoverSigned recoveryCommitment recoveryKey deltaHash) with
            | .error e => .error e
            | .ok signedJWT =>
              .ok { type := "recover", didSuffix := didSuffix, revealValue := revealValue,
                    delta := delta, signedData := signedJWT }

/-- The patch list compiled by `NewUpdateRequest`: one append per
non-empty category, in source order. -/
def updatePatches (stateChange : StateChange) : List Patch :=
  let patches : List Patch := []
  let patches :=
    if stateChange.servicesToAdd.length > 0 then
      patches ++ [Patch.addServicesAction stateChange.servicesToAdd]
    else patches
  let patches :=
    if stateChange.serviceIDsToRemove.length > 0 then
      patches ++ [Patch.removeServicesAction stateChange.serviceIDsToRemove]
    else patches
  let patches :=
    if stateChange.publicKeysToAdd.length > 0 then
      patches ++ [Patch.addPublicKeysAction stateChange.publicKeysToAdd]
    else patches
  let patches :=
    if stateChange.publicKeyIDsToRemove.length > 0 then
      patches ++ [Patch.removePublicKeysAction stateChange.publicKeyIDsToRemove]
    else patches
  patches

/-- Source `NewUpdateRequest`: validate the state change, compile the patches,
derive reveal and next-update commitment, hash the delta, sign
`{updateKey, deltaHash}`. -/
def NewUpdateRequest (env : GoEnv) (didSuffix : String)
    (updateKey nextUpdateKey : PublicKeyJWK) (stateChange : StateChange) :
    Except GoErr UpdateRequest :=
  match IsValid stateChange with
  | some e => .error e
  | none =>
    let patches := updatePatches stateChange
    match Commit env updateKey with
    | .error e => .error e
    | .ok (revealValue, _) =>
      match Commit env nextUpdateKey with
      | .error e => .error e
      | .ok (_, nextUpdateCommitment) =>
        let delta : Delta := { updateCommitment := nextUpdateCommitment, patches := patches }
        match CanonicalizeAny env (GoVal.deltaVal delta) with
        | .error e => .error e
        | .ok deltaCanonical =>
          match HashEncode env deltaCanonical with
          | .error e => .error e
          | .ok deltaHash =>
            match SignJWT env (GoVal.updateSigned updateKey deltaHash) with
            | .error e => .error e
            | .ok signedJWT =>
              .ok { type := "update", didSuffix := didSuffix, revealValue := revealValue,
                    delta := delta, signedData := signedJWT }

/-! ### Auxiliary notions used only by theorem statements -/

/-- ASCII bytes of a string literal, for concrete JWS inputs. -/
def strBytes (s : String) : Bytes := s.data.map Char.toNat

/-- Does the second list occur as a leading segment of the first
argument order: `strStarts needle hay`. -/
def strStarts : List Char → List Char → Bool
  | [], _ => true
  | _ :: _, [] => false
  | a :: as, b :: bs => if a = b then strStarts as bs else false

/-- Does `needle` occur contiguously anywhere inside `hay`?  Formalizes
that an error message references an id. -/
def hasSub (hay needle : List Char) : Bool :=
  match hay with
  | [] => needle.isEmpty
  | _ :: rest => if strStarts needle hay then true else hasSub rest needle

/-! ### Concrete fixtures for witnesses and counterexamples -/

/-- A benign environment: every external call succeeds. -/
def envW : GoEnv where
  sha256 := fun b => [(b.length + b.sum) % 256]
  jsonMarshal := fun _ => .ok [1]
  jcsTransform := fun b => .ok b
  jwkFromPublicKeyJWK := fun k => .ok (GoVal.jwkOf k)
  ecdsaSignRS := fun _ => .ok (1, 2)
  ecdsaVerifyASN1 := fun _ _ => true

/-- An environment whose JSON marshaller fails exactly on the
deactivate payload, the way go-json fails on an unsupported value. -/
def envBug : GoEnv where
  sha256 := fun _ => [9]
  jsonMarshal := fun v =>
    match v with
    | GoVal.deactivateSigned _ _ => .error "unsupported payload"
    | _ => .ok [1]
  jcsTransform := fun b => .ok b
  jwkFromPublicKeyJWK := fun k => .ok (GoVal.jwkOf k)
  ecdsaSignRS := fun _ => .ok (1, 2)
  ecdsaVerifyASN1 := fun _ _ => true

/-- Update state change with one service and one key added, no
removals. -/
def scAddOnly : StateChange where
  servicesToAdd := [{ id := "s1", type := "t", serviceEndpoint := 0 }]
  serviceIDsToRemove := []
  publicKeysToAdd := [{ id := "k1", rest := 0 }]
  publicKeyIDsToRemove := []

/-- A 51-byte id, one over the maximum. -/
def zid : String := "zzzzzzzzzzzzzzzzzzzzzzzzzzzzzzzzzzzzzzzzzzzzzzzzzzz"

/-- Service id "a" both added and removed, but preceded in the removal
list by an over-long id. -/
def scConflictMasked : StateChange where
  servicesToAdd := [{ id := "a", type := "t", serviceEndpoint := 0 }]
  serviceIDsToRemove := [zid, "a"]
  publicKeysToAdd := []
  publicKeyIDsToRemove := []

/-- Service id "svc1" both added and removed. -/
def scConflict : StateChange where
  servicesToAdd := [{ id := "svc1", type := "t", serviceEndpoint := 0 }]
  serviceIDsToRemove := ["svc1"]
  publicKeysToAdd := []
  publicKeyIDsToRemove := []

/-- A duplicated removal id that collides with nothing added. -/
def scDupRemove : StateChange where
  servicesToAdd := [{ id := "s1", type := "t", serviceEndpoint := 0 }]
  serviceIDsToRemove := ["x", "x"]
  publicKeysToAdd := []
  publicKeyIDsToRemove := []

/-! ### Helper lemmas -/

theorem listHas_iff_mem : ∀ (l : List String) (s : String), listHas l s = true ↔ s ∈ l
  | [], s => by simp [listHas]
  | x :: rest, s => by
    simp only [listHas, List.mem_cons]
    by_cases h : x = s
    · simp [h]
    · simp only [if_neg h, listHas_iff_mem rest s]
      constructor
      · exact Or.inr
      · rintro (hs | hs)
        · exact absurd hs.symm h
        · exact hs

theorem hashEncode_ok (env : GoEnv) (data : Bytes) :
    HashEncode env data =
      .ok (Encode (varint 18 ++ varint (env.sha256 data).length ++ env.sha256 data)) := rfl

/-- C2: whenever `Commit` succeeds, the reveal value is the
base64url-encoded multihash of the canonicalized key (one SHA-256
application inside the multihash), and the commitment is the
base64url-encoded multihash of the raw SHA-256 digest of the same
canonical key bytes, exactly one hash application further. -/
theorem c2_commit_one_hash_gap (env : GoEnv) (k : PublicKeyJWK)
    (reveal commitment : Bytes) (h : Commit env k = .ok (reveal, commitment)) :
    ∃ gotJWK canonicalKey,
      env.jwkFromPublicKeyJWK k = .ok gotJWK ∧
      CanonicalizeAny env gotJWK = .ok canonicalKey ∧
      HashEncode env canonicalKey = .ok reveal ∧
      HashEncode env (Hash env canonicalKey) = .ok commitment ∧
      (∀ m, Multihash env canonicalKey = .ok m → reveal = Encode m) ∧
      (∀ m, Multihash env (Hash env canonicalKey) = .ok m → commitment = Encode m) := by
  unfold Commit at h
  split at h
  · exact absurd h (by simp)
  case _ gotJWK hjwk =>
    split at h
    · exact absurd h (by simp)
    case _ canonicalKey hcanon =>
      simp only [hashEncode_ok, Except.ok.injEq, Prod.mk.injEq] at h
      obtain ⟨hr, hc⟩ := h
      subst hr
      subst hc
      refine ⟨gotJWK, canonicalKey, hjwk, hcanon, rfl, rfl, ?_, ?_⟩
      · intro m hm
        simp only [Multihash, Except.ok.injEq] at hm
        rw [hm]
      · intro m hm
        simp only [Multihash, Except.ok.injEq] at hm
        rw [hm]

/-- C2 witness. -/
theorem c2_witness :
    ∃ r c gotJWK canonicalKey,
      Commit envW 0 = .ok (r, c) ∧
      envW.jwkFromPublicKeyJWK 0 = .ok gotJWK ∧
      CanonicalizeAny envW gotJWK = .ok canonicalKey ∧
      HashEncode envW canonicalKey = .ok r ∧
      HashEncode envW (Hash envW canonicalKey) = .ok c := by
  have h : Commit envW 0 = .ok (Encode [18, 1, 2], Encode [18, 1, 3]) := by rfl
  obtain ⟨gotJWK, canonicalKey, h1, h2, h3, h4, _, _⟩ :=
    c2_commit_one_hash_gap envW 0 _ _ h
  exact ⟨_, _, gotJWK, canonicalKey, h, h1, h2, h3, h4⟩

/-- C8: `Commit` is a pure function of the environment and the key; two
invocations on the same key return byte-identical reveal and commitment
values. -/
theorem c8_commit_deterministic (env : GoEnv) (k : PublicKeyJWK)
    (r1 c1 r2 c2 : Bytes)
    (h1 : Commit env k = .ok (r1, c1)) (h2 : Commit env k = .ok (r2, c2)) :
    r1 = r2 ∧ c1 = c2 := by
  rw [h1] at h2
  simp only [Except.ok.injEq, Prod.mk.injEq] at h2
  exact h2

/-- C8 witness. -/
theorem c8_witness :
    ∃ r c, Commit envW 3 = .ok (r, c) ∧ r = r ∧ c = c := by
  have h : Commit envW 3 = .ok (Encode [18, 1, 2], Encode [18, 1, 3]) := by rfl
  exact ⟨_, _, h, c8_commit_deterministic envW 3 _ _ _ _ h h⟩

theorem updatePatches_eq (sc : StateChange) :
    updatePatches sc =
      (if sc.servicesToAdd ≠ [] then [Patch.addServicesAction sc.servicesToAdd] else []) ++
      (if sc.serviceIDsToRemove ≠ [] then [Patch.removeServicesAction sc.serviceIDsToRemove] else []) ++
      (if sc.publicKeysToAdd ≠ [] then [Patch.addPublicKeysAction sc.publicKeysToAdd] else []) ++
      (if sc.publicKeyIDsToRemove ≠ [] then [Patch.removePublicKeysAction sc.publicKeyIDsToRemove] else []) := by
  unfold updatePatches
  by_cases h1 : sc.servicesToAdd = [] <;>
    by_cases h2 : sc.serviceIDsToRemove = [] <;>
      by_cases h3 : sc.publicKeysToAdd = [] <;>
        by_cases h4 : sc.publicKeyIDsToRemove = [] <;>
          simp [h1, h2, h3, h4, List.length_pos]

theorem newUpdateRequest_ok_shape (env : GoEnv) (didSuffix : String)
    (updateKey nextUpdateKey : PublicKeyJWK) (sc : StateChange) (req : UpdateRequest)
    (h : NewUpdateRequest env didSuffix updateKey nextUpdateKey sc = .ok req) :
    req.delta.patches = updatePatches sc ∧ req.type = "update" ∧ req.didSuffix = didSuffix := by
  unfold NewUpdateRequest at h
  split at h
  · exact absurd h (by simp)
  · split at h
    · exact absurd h (by simp)
    · split at h
      · exact absurd h (by simp)
      · dsimp only at h
        split at h
        · exact absurd h (by simp)
        · split at h
          · exact absurd h (by simp)
          · split at h
            · exact absurd h (by simp)
            · simp only [Except.ok.injEq] at h
              subst h
              exact ⟨rfl, rfl, rfl⟩

theorem newUpdateRequest_invalid (env : GoEnv) (didSuffix : String)
    (updateKey nextUpdateKey : PublicKeyJWK) (sc : StateChange) (e : GoErr)
    (h : IsValid sc = some e) :
    NewUpdateRequest env didSuffix updateKey nextUpdateKey sc = .error e := by
  unfold NewUpdateRequest
  rw [h]

/-- C3: patches compiled by `NewUpdateRequest` always appear in the
fixed order add-services, remove-services, add-public-keys,
remove-public-keys, each category omitted entirely when its input list
is empty; with only the two addition lists non-empty, the compiled list
is exactly the two-element sequence. -/
theorem c3_update_patch_order :
    (∀ (env : GoEnv) (d : String) (k1 k2 : PublicKeyJWK) (sc : StateChange) (req : UpdateRequest),
      NewUpdateRequest env d k1 k2 sc = .ok req →
      req.delta.patches =
        (if sc.servicesToAdd ≠ [] then [Patch.addServicesAction sc.servicesToAdd] else []) ++
        (if sc.serviceIDsToRemove ≠ [] then [Patch.removeServicesAction sc.serviceIDsToRemove] else []) ++
        (if sc.publicKeysToAdd ≠ [] then [Patch.addPublicKeysAction sc.publicKeysToAdd] else []) ++
        (if sc.publicKeyIDsToRemove ≠ [] then [Patch.removePublicKeysAction sc.publicKeyIDsToRemove] else [])) ∧
    (∀ (env : GoEnv) (d : String) (k1 k2 : PublicKeyJWK) (sc : StateChange) (req : UpdateRequest),
      sc.servicesToAdd ≠ [] → sc.publicKeysToAdd ≠ [] →
      sc.serviceIDsToRemove = [] → sc.publicKeyIDsToRemove = [] →
      NewUpdateRequest env d k1 k2 sc = .ok req →
      req.delta.patches =
        [Patch.addServicesAction sc.servicesToAdd, Patch.addPublicKeysAction sc.publicKeysToAdd]) := by
  constructor
  · intro env d k1 k2 sc req h
    rw [(newUpdateRequest_ok_shape env d k1 k2 sc req h).1, updatePatches_eq]
  · intro env d k1 k2 sc req h1 h2 h3 h4 h
    rw [(newUpdateRequest_ok_shape env d k1 k2 sc req h).1, updatePatches_eq]
    simp [h1, h2, h3, h4]

/-- C3 witness. -/
theorem c3_witness :
    ∃ req, NewUpdateRequest envW "did" 0 1 scAddOnly = .ok req ∧
      req.delta.patches =
        [Patch.addServicesAction scAddOnly.servicesToAdd,
         Patch.addPublicKeysAction scAddOnly.publicKeysToAdd] := by
  obtain ⟨req, hreq⟩ : ∃ req, NewUpdateRequest envW "did" 0 1 scAddOnly = .ok req := ⟨_, rfl⟩
  exact ⟨req, hreq,
    c3_update_patch_order.2 envW "did" 0 1 scAddOnly req (by decide) (by decide) rfl rfl hreq⟩

theorem listHas_eq_false_of_not_mem (l : List String) (s : String) (h : s ∉ l) :
    listHas l s = false := by
  cases hb : listHas l s
  · rfl
  · exact absurd ((listHas_iff_mem l s).mp hb) h

theorem checkServiceIDsToRemove_none (addIDs : List String) :
    ∀ rem : List String,
      (∀ id ∈ rem, strByteLen id ≤ maxIDLength ∧ listHas addIDs id = false) →
      checkServiceIDsToRemove addIDs rem = none
  | [], _ => rfl
  | serviceID :: rest, h => by
    have hh := h serviceID (List.mem_cons_self _ _)
    unfold checkServiceIDsToRemove
    rw [hh.2]
    simp only [Bool.false_eq_true, if_false]
    rw [if_neg (by omega)]
    exact checkServiceIDsToRemove_none addIDs rest fun id hid => h id (List.mem_cons_of_mem _ hid)

theorem checkPublicKeyIDsToRemove_none (addIDs : List String) :
    ∀ rem : List String,
      (∀ id ∈ rem, strByteLen id ≤ maxIDLength ∧ listHas addIDs id = false) →
      checkPublicKeyIDsToRemove addIDs rem = none
  | [], _ => rfl
  | publicKeyID :: rest, h => by
    have hh := h publicKeyID (List.mem_cons_self _ _)
    unfold checkPublicKeyIDsToRemove
    rw [hh.2]
    simp only [Bool.false_eq_true, if_false]
    rw [if_neg (by omega)]
    exact checkPublicKeyIDsToRemove_none addIDs rest fun id hid => h id (List.mem_cons_of_mem _ hid)

/-- C10: the validator checks uniqueness only over the addition lists; a
state change whose removal lists contain duplicated ids still validates
(each removal id being within the length bound and absent from the
corresponding addition list), and the duplicated removal list flows
unchanged into the compiled removal patch. -/
theorem c10_duplicate_removals_accepted (sc : StateChange)
    (hadds : checkServicesToAdd sc.servicesToAdd [] = none)
    (hkeys : checkPublicKeysToAdd sc.publicKeysToAdd [] = none)
    (hsrem : ∀ id ∈ sc.serviceIDsToRemove,
      strByteLen id ≤ maxIDLength ∧ id ∉ sc.servicesToAdd.map Service.id)
    (hkrem : ∀ id ∈ sc.publicKeyIDsToRemove,
      strByteLen id ≤ maxIDLength ∧ id ∉ sc.publicKeysToAdd.map PublicKey.id)
    (hdup : ¬ sc.serviceIDsToRemove.Nodup ∨ ¬ sc.publicKeyIDsToRemove.Nodup) :
    IsValid sc = none ∧
    ∀ (env : GoEnv) (d : String) (k1 k2 : PublicKeyJWK) (req : UpdateRequest),
      NewUpdateRequest env d k1 k2 sc = .ok req →
      (sc.serviceIDsToRemove ≠ [] →
        Patch.removeServicesAction sc.serviceIDsToRemove ∈ req.delta.patches) ∧
      (sc.publicKeyIDsToRemove ≠ [] →
        Patch.removePublicKeysAction sc.publicKeyIDsToRemove ∈ req.delta.patches) := by
  have hs : checkServiceIDsToRemove (sc.servicesToAdd.map Service.id) sc.serviceIDsToRemove = none :=
    checkServiceIDsToRemove_none _ _ fun id hid =>
      ⟨(hsrem id hid).1, listHas_eq_false_of_not_mem _ _ (hsrem id hid).2⟩
  have hk : checkPublicKeyIDsToRemove (sc.publicKeysToAdd.map PublicKey.id) sc.publicKeyIDsToRemove = none :=
    checkPublicKeyIDsToRemove_none _ _ fun id hid =>
      ⟨(hkrem id hid).1, listHas_eq_false_of_not_mem _ _ (hkrem id hid).2⟩
  have hv : IsValid sc = none := by
    unfold IsValid
    rw [hadds, hkeys, hs, hk]
  refine ⟨hv, ?_⟩
  intro env d k1 k2 req h
  constructor
  · intro hne
    rw [(newUpdateRequest_ok_shape env d k1 k2 sc req h).1, updatePatches_eq]
    apply List.mem_append_left
    apply List.mem_append_left
    apply List.mem_append_right
    rw [if_pos hne]
    exact List.mem_singleton_self _
  · intro hne
    rw [(newUpdateRequest_ok_shape env d k1 k2 sc req h).1, updatePatches_eq]
    apply List.mem_append_right
    rw [if_pos hne]
    exact List.mem_singleton_self _

/-- C10 witness. -/
theorem c10_witness :
    IsValid scDupRemove = none ∧
    ∃ req, NewUpdateRequest envW "did" 0 1 scDupRemove = .ok req ∧
      Patch.removeServicesAction ["x", "x"] ∈ req.delta.patches := by
  have hc := c10_duplicate_removals_accepted scDupRemove rfl rfl
    (by decide) (by decide) (Or.inl (by decide))
  obtain ⟨req, hreq⟩ : ∃ req, NewUpdateRequest envW "did" 0 1 scDupRemove = .ok req := ⟨_, rfl⟩
  exact ⟨hc.1, req, hreq, (hc.2 envW "did" 0 1 req hreq).1 (by decide)⟩

theorem decByte_b64Byte : ∀ n, n < 64 → decByte (b64Byte n) = some n := by decide

/-- C9: unpadded URL-safe base64 decoding inverts encoding on every
byte sequence, the empty sequence included. -/
theorem c9_decode_encode_roundtrip (bs : Bytes) (h : ∀ x ∈ bs, x < 256) :
    Decode (Encode bs) = some bs := by
  unfold Decode Encode
  induction bs using encodeGroups.induct with
  | case1 => rfl
  | case2 a =>
    have ha : a < 256 := h a (List.mem_singleton_self a)
    have h1 : decByte (b64Byte (a / 4)) = some (a / 4) := decByte_b64Byte _ (by omega)
    have h2 : decByte (b64Byte (a % 4 * 16)) = some (a % 4 * 16) := decByte_b64Byte _ (by omega)
    simp only [encodeGroups, decodeGroups, h1, h2, Option.some.injEq, List.cons.injEq, and_true]
    omega
  | case3 a b =>
    have ha : a < 256 := h a (by simp)
    have hb : b < 256 := h b (by simp)
    have h1 : decByte (b64Byte (a / 4)) = some (a / 4) := decByte_b64Byte _ (by omega)
    have h2 : decByte (b64Byte (a % 4 * 16 + b / 16)) = some (a % 4 * 16 + b / 16) :=
      decByte_b64Byte _ (by omega)
    have h3 : decByte (b64Byte (b % 16 * 4)) = some (b % 16 * 4) := decByte_b64Byte _ (by omega)
    simp only [encodeGroups, decodeGroups, h1, h2, h3, Option.some.injEq,
      List.cons.injEq, and_true]
    exact ⟨by omega, by omega⟩
  | case4 a b c rest ih =>
    have ha : a < 256 := h a (by simp)
    have hb : b < 256 := h b (by simp)
    have hc : c < 256 := h c (by simp)
    have h1 : decByte (b64Byte (a / 4)) = some (a / 4) := decByte_b64Byte _ (by omega)
    have h2 : decByte (b64Byte (a % 4 * 16 + b / 16)) = some (a % 4 * 16 + b / 16) :=
      decByte_b64Byte _ (by omega)
    have h3 : decByte (b64Byte (b % 16 * 4 + c / 64)) = some (b % 16 * 4 + c / 64) :=
      decByte_b64Byte _ (by omega)
    have h4 : decByte (b64Byte (c % 64)) = some (c % 64) := decByte_b64Byte _ (by omega)
    have ihh : decodeGroups (encodeGroups rest) = some rest :=
      ih fun x hx => h x (by simp [hx])
    simp only [encodeGroups, decodeGroups, h1, h2, h3, h4, ihh,
      Option.some.injEq, List.cons.injEq, and_true]
    exact ⟨by omega, by omega, by omega⟩

/-- C9 witness. -/
theorem c9_witness :
    Decode (Encode []) = some [] ∧ Decode (Encode [0, 255, 10, 77]) = some [0, 255, 10, 77] :=
  ⟨c9_decode_encode_roundtrip [] (by decide),
   c9_decode_encode_roundtrip [0, 255, 10, 77] (by decide)⟩

/-- C5: both JWS paths digest the same value.  `SignJWT` hands the
external ECDSA signer `sha256 (sha256 (header ++ "." ++ payload))` (one
hash taken in `SignJWT`, one inside `Sign`), and `VerifyJWS` on a
three-part JWS hands the external verifier exactly
`sha256 (sha256 (parts0 ++ "." ++ parts1))`. -/
theorem c5_double_hash_consistent :
    (∀ (env : GoEnv) (data : GoVal) (eh ep : Bytes),
      EncodeAny env GoVal.jwsHeader = .ok eh → EncodeAny env data = .ok ep →
      SignJWT env data =
        match env.ecdsaSignRS (env.sha256 (env.sha256 (eh ++ dotByte :: ep))) with
        | .error _ => .ok []
        | .ok (r, s) =>
          match toCompactHex r s with
          | .error _ => .ok []
          | .ok signed => .ok (eh ++ dotByte :: ep ++ dotByte :: Encode signed)) ∧
    (∀ (env : GoEnv) (jws p0 p1 p2 sig : Bytes),
      splitOnByte dotByte jws = [p0, p1, p2] → Decode p2 = some sig →
      VerifyJWS env jws =
        (env.ecdsaVerifyASN1 (env.sha256 (env.sha256 (p0 ++ dotByte :: p1))) sig, none)) := by
  constructor
  · intro env data eh ep hh hp
    unfold SignJWT
    rw [hh, hp]
    unfold Sign Hash
    rcases hx : env.ecdsaSignRS (env.sha256 (env.sha256 (eh ++ dotByte :: ep))) with e | ⟨r, s⟩
    · simp [hx]
    · simp [hx]
  · intro env jws p0 p1 p2 sig hsplit hdec
    simp only [VerifyJWS, hsplit, List.length_cons, List.length_nil]
    rw [hdec]
    rfl

/-- C5 witness. -/
theorem c5_witness :
    SignJWT envW (GoVal.docVal 0) =
      (match envW.ecdsaSignRS (envW.sha256 (envW.sha256 (Encode [1] ++ dotByte :: Encode [1]))) with
        | .error _ => .ok []
        | .ok (r, s) =>
          match toCompactHex r s with
          | .error _ => .ok []
          | .ok signed => .ok (Encode [1] ++ dotByte :: Encode [1] ++ dotByte :: Encode signed)) ∧
    VerifyJWS envW (strBytes "a.b.AA") =
      (envW.ecdsaVerifyASN1 (envW.sha256 (envW.sha256 (strBytes "a" ++ dotByte :: strBytes "b"))) [0],
       none) :=
  ⟨c5_double_hash_consistent.1 envW (GoVal.docVal 0) (Encode [1]) (Encode [1]) rfl rfl,
   c5_double_hash_consistent.2 envW (strBytes "a.b.AA") (strBytes "a") (strBytes "b")
     (strBytes "AA") [0] (by decide) (by decide)⟩

/-- C6: `VerifyJWS` fails, returning false with a non-nil error, on any
input that does not split into exactly three dot-separated parts (in
particular on "only.two"), and on any three-part input whose third
segment is not valid unpadded URL-safe base64. -/
theorem c6_verifyJWS_malformed :
    (∀ (env : GoEnv) (jws : Bytes), (splitOnByte dotByte jws).length ≠ 3 →
      ∃ e, VerifyJWS env jws = (false, some e)) ∧
    (∀ env : GoEnv, ∃ e, VerifyJWS env (strBytes "only.two") = (false, some e)) ∧
    (∀ (env : GoEnv) (jws p0 p1 p2 : Bytes),
      splitOnByte dotByte jws = [p0, p1, p2] → Decode p2 = none →
      ∃ e, VerifyJWS env jws = (false, some e)) := by
  refine ⟨?_, ?_, ?_⟩
  · intro env jws h
    simp only [VerifyJWS]
    rw [if_pos h]
    exact ⟨"invalid JWS", rfl⟩
  · intro env
    simp only [VerifyJWS]
    rw [if_pos (by decide)]
    exact ⟨"invalid JWS", rfl⟩
  · intro env jws p0 p1 p2 hsplit hdec
    simp only [VerifyJWS, hsplit, List.length_cons, List.length_nil]
    rw [hdec]
    exact ⟨"could not decode signature", rfl⟩

/-- C6 witness. -/
theorem c6_witness :
    (∃ e, VerifyJWS envW (strBytes "only.two") = (false, some e)) ∧
    (∃ e, VerifyJWS envW (strBytes "a.b.!a") = (false, some e)) :=
  ⟨c6_verifyJWS_malformed.2.1 envW,
   c6_verifyJWS_malformed.2.2 envW (strBytes "a.b.!a") (strBytes "a") (strBytes "b")
     (strBytes "!a") (by decide) (by decide)⟩

/-- C4: evaluation of the code at an input whose payload marshalling
fails.  `SignJWT` returns the pair `("", nil)` — it logs and discards
the error — so `NewDeactivateRequest` sees no error and returns a
request whose `SignedData` is the empty string, with a nil error,
contradicting the stated propagation policy. -/
theorem c4_signjwt_swallows_error :
    envBug.jsonMarshal (GoVal.deactivateSigned "abc123" 7) = .error "unsupported payload" ∧
    SignJWT envBug (GoVal.deactivateSigned "abc123" 7) = .ok [] ∧
    (NewDeactivateRequest envBug "abc123" 7).toOption.map DeactivateRequest.signedData =
      some [] :=
  ⟨rfl, rfl, by rfl⟩

theorem string_data_append (s t : String) : (s ++ t).data = s.data ++ t.data := rfl

theorem hasSub_nil_needle : ∀ hay : List Char, hasSub hay [] = true
  | [] => rfl
  | _ :: _ => by simp [hasSub, strStarts]

theorem strStarts_append_self : ∀ n r : List Char, strStarts n (n ++ r) = true
  | [], _ => rfl
  | a :: as, r => by simp [strStarts, strStarts_append_self as r]

theorem hasSub_append_middle : ∀ pre n post : List Char, hasSub (pre ++ (n ++ post)) n = true
  | [], n, post => by
    cases n with
    | nil => exact hasSub_nil_needle post
    | cons a as =>
      have hs : strStarts (a :: as) ((a :: as) ++ post) = true := strStarts_append_self _ _
      simp only [List.nil_append]
      simp [hasSub]
      exact Or.inl hs
  | p :: ps, n, post => by
    have ih := hasSub_append_middle ps n post
    cases hs : strStarts n ((p :: ps) ++ (n ++ post)) <;>
      simp_all [hasSub, List.cons_append]

theorem checkServiceIDsToRemove_conflict (addIDs : List String) :
    ∀ rem : List String,
      (∀ id ∈ rem, strByteLen id ≤ maxIDLength) →
      (∃ id ∈ rem, listHas addIDs id = true) →
      ∃ id, id ∈ rem ∧ listHas addIDs id = true ∧
        checkServiceIDsToRemove addIDs rem =
          some ("service<" ++ id ++ "> added and removed in same request")
  | [], _, h => absurd h (by simp)
  | serviceID :: rest, hlen, hconf => by
    cases hs : listHas addIDs serviceID
    · have hl := hlen serviceID (List.mem_cons_self _ _)
      have hrest : ∃ id ∈ rest, listHas addIDs id = true := by
        obtain ⟨id, hid, hhas⟩ := hconf
        rcases List.mem_cons.mp hid with heq | hmem
        · rw [heq] at hhas
          rw [hhas] at hs
          exact absurd hs (by simp)
        · exact ⟨id, hmem, hhas⟩
      obtain ⟨id, hid, hhas, hcheck⟩ := checkServiceIDsToRemove_conflict addIDs rest
        (fun i hi => hlen i (List.mem_cons_of_mem _ hi)) hrest
      refine ⟨id, List.mem_cons_of_mem _ hid, hhas, ?_⟩
      unfold checkServiceIDsToRemove
      rw [hs]
      simp only [Bool.false_eq_true, if_false]
      rw [if_neg (by omega)]
      exact hcheck
    · refine ⟨serviceID, List.mem_cons_self _ _, hs, ?_⟩
      unfold checkServiceIDsToRemove
      rw [hs]
      rfl

theorem checkPublicKeyIDsToRemove_conflict (addIDs : List String) :
    ∀ rem : List String,
      (∀ id ∈ rem, strByteLen id ≤ maxIDLength) →
      (∃ id ∈ rem, listHas addIDs id = true) →
      ∃ id, id ∈ rem ∧ listHas addIDs id = true ∧
        checkPublicKeyIDsToRemove addIDs rem =
          some ("public key<" ++ id ++ "> added and removed in same request")
  | [], _, h => absurd h (by simp)
  | publicKeyID :: rest, hlen, hconf => by
    cases hs : listHas addIDs publicKeyID
    · have hl := hlen publicKeyID (List.mem_cons_self _ _)
      have hrest : ∃ id ∈ rest, listHas addIDs id = true := by
        obtain ⟨id, hid, hhas⟩ := hconf
        rcases List.mem_cons.mp hid with heq | hmem
        · rw [heq] at hhas
          rw [hhas] at hs
          exact absurd hs (by simp)
        · exact ⟨id, hmem, hhas⟩
      obtain ⟨id, hid, hhas, hcheck⟩ := checkPublicKeyIDsToRemove_conflict addIDs rest
        (fun i hi => hlen i (List.mem_cons_of_mem _ hi)) hrest
      refine ⟨id, List.mem_cons_of_mem _ hid, hhas, ?_⟩
      unfold checkPublicKeyIDsToRemove
      rw [hs]
      simp only [Bool.false_eq_true, if_false]
      rw [if_neg (by omega)]
      exact hcheck
    · refine ⟨publicKeyID, List.mem_cons_self _ _, hs, ?_⟩
      unfold checkPublicKeyIDsToRemove
      rw [hs]
      rfl

/-- C7 counterexample: service id "a" is both added and removed and the
addition lists pass every check, yet the validation error references
only the over-long removal id that precedes it in the scan, not "a";
the claim that the error references the added-and-removed id fails. -/
theorem c7_counterexample :
    ("a" ∈ scConflictMasked.servicesToAdd.map Service.id ∧
      "a" ∈ scConflictMasked.serviceIDsToRemove) ∧
    checkServicesToAdd scConflictMasked.servicesToAdd [] = none ∧
    checkPublicKeysToAdd scConflictMasked.publicKeysToAdd [] = none ∧
    IsValid scConflictMasked = some ("service<" ++ zid ++ "> id is too long") ∧
    hasSub ("service<" ++ zid ++ "> id is too long").data "a".data = false := by
  refine ⟨by decide, rfl, rfl, by rfl, by decide⟩

/-- C7 amended: when additionally every removal id passes the length
check, the validator rejects a state change that adds and removes the
same id, the returned message references an id that is both added and
removed, and `NewUpdateRequest` fails without building a request. -/
theorem c7_amended_conflict_reported (sc : StateChange)
    (hadds : checkServicesToAdd sc.servicesToAdd [] = none)
    (hkeys : checkPublicKeysToAdd sc.publicKeysToAdd [] = none)
    (hslen : ∀ id ∈ sc.serviceIDsToRemove, strByteLen id ≤ maxIDLength)
    (hklen : ∀ id ∈ sc.publicKeyIDsToRemove, strByteLen id ≤ maxIDLength)
    (hconf : (∃ id, id ∈ sc.servicesToAdd.map Service.id ∧ id ∈ sc.serviceIDsToRemove) ∨
             (∃ id, id ∈ sc.publicKeysToAdd.map PublicKey.id ∧ id ∈ sc.publicKeyIDsToRemove)) :
    ∃ id msg, IsValid sc = some msg ∧
      ((id ∈ sc.servicesToAdd.map Service.id ∧ id ∈ sc.serviceIDsToRemove) ∨
       (id ∈ sc.publicKeysToAdd.map PublicKey.id ∧ id ∈ sc.publicKeyIDsToRemove)) ∧
      hasSub msg.data id.data = true ∧
      ∀ (env : GoEnv) (d : String) (k1 k2 : PublicKeyJWK),
        NewUpdateRequest env d k1 k2 sc = .error msg := by
  by_cases hsc : ∃ id, id ∈ sc.servicesToAdd.map Service.id ∧ id ∈ sc.serviceIDsToRemove
  · obtain ⟨id0, hmem0, hrem0⟩ := hsc
    obtain ⟨id, hid, hhas, hcheck⟩ :=
      checkServiceIDsToRemove_conflict (sc.servicesToAdd.map Service.id) sc.serviceIDsToRemove
        hslen ⟨id0, hrem0, (listHas_iff_mem _ _).mpr hmem0⟩
    have hv : IsValid sc = some ("service<" ++ id ++ "> added and removed in same request") := by
      unfold IsValid
      rw [hadds, hkeys, hcheck]
    refine ⟨id, _, hv, Or.inl ⟨(listHas_iff_mem _ _).mp hhas, hid⟩, ?_, ?_⟩
    · rw [string_data_append, string_data_append, List.append_assoc]
      exact hasSub_append_middle _ _ _
    · intro env d k1 k2
      exact newUpdateRequest_invalid env d k1 k2 sc _ hv
  · have hnone : checkServiceIDsToRemove (sc.servicesToAdd.map Service.id)
        sc.serviceIDsToRemove = none := by
      apply checkServiceIDsToRemove_none
      intro id hid
      refine ⟨hslen id hid, ?_⟩
      cases hb : listHas (sc.servicesToAdd.map Service.id) id
      · rfl
      · exact absurd ⟨id, (listHas_iff_mem _ _).mp hb, hid⟩ hsc
    have hkc : ∃ id, id ∈ sc.publicKeysToAdd.map PublicKey.id ∧
        id ∈ sc.publicKeyIDsToRemove := hconf.resolve_left hsc
    obtain ⟨id0, hmem0, hrem0⟩ := hkc
    obtain ⟨id, hid, hhas, hcheck⟩ :=
      checkPublicKeyIDsToRemove_conflict (sc.publicKeysToAdd.map PublicKey.id)
        sc.publicKeyIDsToRemove hklen ⟨id0, hrem0, (listHas_iff_mem _ _).mpr hmem0⟩
    have hv : IsValid sc =
        some ("public key<" ++ id ++ "> added and removed in same request") := by
      unfold IsValid
      rw [hadds, hkeys, hnone, hcheck]
    refine ⟨id, _, hv, Or.inr ⟨(listHas_iff_mem _ _).mp hhas, hid⟩, ?_, ?_⟩
    · rw [string_data_append, string_data_append, List.append_assoc]
      exact hasSub_append_middle _ _ _
    · intro env d k1 k2
      exact newUpdateRequest_invalid env d k1 k2 sc _ hv

/-- C7 witness (for the amended theorem). -/
theorem c7_witness :
    ∃ id msg, IsValid scConflict = some msg ∧
      ((id ∈ scConflict.servicesToAdd.map Service.id ∧ id ∈ scConflict.serviceIDsToRemove) ∨
       (id ∈ scConflict.publicKeysToAdd.map PublicKey.id ∧
        id ∈ scConflict.publicKeyIDsToRemove)) ∧
      hasSub msg.data id.data = true ∧
      ∀ (env : GoEnv) (d : String) (k1 k2 : PublicKeyJWK),
        NewUpdateRequest env d k1 k2 scConflict = .error msg :=
  c7_amended_conflict_reported scConflict rfl rfl (by decide) (by decide)
    (Or.inl ⟨"svc1", by decide, by decide⟩)

end DidSdk
